import Mathlib

/-
Verification of the OptiSigns help-center mirroring pipeline.

The development shallowly embeds the three Python modules:
  * `scraper.py` (class `OptiSignsScraper`): the Source Lister
    (`fetch_articles_list`) and the Change-Detection Engine (`scrape_all`,
    `scrape_article`, `clean_html_to_markdown`, `get_article_hash`,
    `save_article`, `save_metadata`);
  * `vector_store_manager.py` (class `VectorStoreManager`): the Delta
    Uploader (`upload_delta_files` built on `upload_file` and
    `add_file_to_vector_store`);
  * `main.py` (`main`): the pipeline driver.

External collaborators (the network, BeautifulSoup + html2text rendering,
the md5 digest, the wall clock) enter as parameters or as abstract
deterministic functions; everything written in the Python source itself is
translated directly.
-/

set_option autoImplicit false

namespace OptiSigns

/-! ## Data model -/

/-- One entry of the paginated catalog listing (`data.get('articles', [])`
in `fetch_articles_list`): the fields of the listing object that
`scrape_all` reads (`article_info['id']`, `article_info.get('title')`).
The id is kept as the string `str(article_info['id'])` computes. -/
structure Descriptor where
  id : String
  title : String
deriving DecidableEq, Repr

/-- The full article JSON returned by `fetch_article_content`
(`response.json().get('article')`): the fields `scrape_article` reads. -/
structure ArticleJson where
  body : String
  html_url : String
  title : String
  updated_at : String
deriving DecidableEq, Repr

/-- The dictionary `scrape_article` returns on success. -/
structure ArticleData where
  markdown : String
  hash : String
  url : String
  title : String
  updated_at : String
  scraped_at : String
deriving DecidableEq, Repr

/-- One value of the persisted metadata mapping
(`articles_metadata.json`): `{'hash', 'url', 'title', 'filename',
'last_updated'}` as written by `scrape_all`. -/
structure FingerprintRecord where
  hash : String
  url : String
  title : String
  filename : String
  last_updated : String
deriving DecidableEq, Repr

/-- The run-level counters (`stats` in `scrape_all`). -/
structure Stats where
  added : Nat
  updated : Nat
  skipped : Nat
  failed : Nat
deriving DecidableEq, Repr

/-- The per-article classification printed by `scrape_all`
("+ Added", "↻ Updated", "✓ Unchanged", "✗ Failed"). -/
inductive Classification where
  | added
  | updated
  | unchanged
  | failed
deriving DecidableEq, Repr

/-- The metadata store: a Python dict `{article_id: record}`, embedded as
an insertion-ordered association list with unique keys. -/
abbrev Metadata := List (String × FingerprintRecord)

/-- The local article cache (`articles/` directory): filename to file
content. -/
abbrev Cache := List (String × String)

/-- Dict read: `m[k]` / `k in m`. -/
def lookupKey {α : Type} : List (String × α) → String → Option α
  | [], _ => none
  | (k, v) :: rest, key => if k = key then some v else lookupKey rest key

/-- Dict write `m[k] = v` (and in-place `m[k].update(...)` once the merged
record is given): replaces the value at an existing key in place,
otherwise appends the binding at the end, matching Python dict insertion
order. -/
def setKey {α : Type} : List (String × α) → String → α → List (String × α)
  | [], k, v => [(k, v)]
  | (k₁, v₁) :: rest, k, v =>
    if k₁ = k then (k, v) :: rest else (k₁, v₁) :: setKey rest k v

/-! ## Source Lister: `fetch_articles_list` -/

/-- One page response of the catalog endpoint, as `fetch_articles_list`
observes it: `failure` is a non-200 status or a raised exception;
`success items next_page` is a 200 response whose JSON carries
`articles = items` and whose `next_page` field is truthy iff
`next_page = true`. -/
inductive PageResp where
  | failure
  | success (articles : List Descriptor) (next_page : Bool)
deriving DecidableEq, Repr

/-- The items a page contributes: a failed page contributes none. -/
def pageItems : PageResp → List Descriptor
  | .failure => []
  | .success items _ => items

/-- Whether the page response was a success. -/
def pageOk : PageResp → Bool
  | .failure => false
  | .success _ _ => true

/-- `OptiSignsScraper.fetch_articles_list`: request pages in order,
accumulating `articles`.  A non-200 status or exception breaks the loop
(returning what was accumulated); an empty `articles` list breaks; a
falsy `next_page` breaks after extending.  The argument is the sequence
of responses the catalog endpoint would give to pages 1, 2, 3, .... -/
def fetch_articles_list : List PageResp → List Descriptor
  | [] => []
  | .failure :: _ => []
  | .success items next :: rest =>
    if items = [] then []
    else if next then items ++ fetch_articles_list rest
    else items

/-! ## Change-Detection Engine: normalization -/

/-- `markdown.split(chr 10)` on the character list of a string:
splitting on newline, keeping empty segments, one segment even for the
empty input (Python `str.split` semantics for a one-character
separator). -/
def splitLinesAux : List Char → List Char → List (List Char)
  | [], cur => [cur.reverse]
  | c :: cs, cur =>
    if c = '\n' then cur.reverse :: splitLinesAux cs [] else splitLinesAux cs (c :: cur)

/-- `markdown.split` on newline, as strings. -/
def splitLines (s : String) : List String :=
  (splitLinesAux s.data []).map (fun l => String.mk l)

/-- Python `str.strip()` on a character list: drop whitespace from both
ends. -/
def stripChars (l : List Char) : List Char :=
  ((l.dropWhile Char.isWhitespace).reverse.dropWhile Char.isWhitespace).reverse

/-- Python `str.strip()`. -/
def stripStr (s : String) : String :=
  String.mk (stripChars s.data)

/-- Python `(chr 10).join(lines)`. -/
def joinLines : List String → String
  | [] => ""
  | [l] => l
  | l :: ls => l ++ "\n" ++ joinLines ls

/-- One iteration of the blank-line-collapsing loop in
`clean_html_to_markdown`: keeps a non-blank line, keeps a blank line only
when the previous kept line was not blank, threading `prev_empty`. -/
def collapseStep (acc : List String × Bool) (line : String) : List String × Bool :=
  let is_empty := stripStr line = ""
  if is_empty then
    if acc.2 then (acc.1, true) else (acc.1 ++ [line], true)
  else
    (acc.1 ++ [line], false)

/-- The blank-line cleanup of `clean_html_to_markdown`: split into lines,
collapse runs of blank lines to one, rejoin, strip. -/
def collapseBlankLines (markdown : String) : String :=
  stripStr (joinLines ((splitLines markdown).foldl collapseStep ([], false)).1)

/-- `OptiSignsScraper.clean_html_to_markdown(html_content, article_url)`.
`render` stands for the external stateless collaborators: BeautifulSoup
parsing with `script`/`style`/`meta`/`link` tags decomposed, followed by
`html2text` conversion of the remaining markup.  A falsy (empty) body
yields the empty string; otherwise the rendered text is blank-collapsed,
stripped, and prefixed with the canonical article-URL header line. -/
def clean_html_to_markdown (render : String → String) (html_content article_url : String) : String :=
  if html_content = "" then ""
  else
    "Article URL: " ++ article_url ++ "\n\n" ++ collapseBlankLines (render html_content)

/-- `OptiSignsScraper.get_article_hash(content)`: the md5 hexdigest of
the UTF-8 encoding of `content`, modelled as an abstract deterministic
digest of the content string (the verified properties depend only on the
digest being a function of the content, never on md5 internals). -/
def get_article_hash (content : String) : String :=
  toString (content.data.foldl (fun h c => (h * 131 + c.toNat) % 1000000007) 7)

/-! ## Change-Detection Engine: per-article scrape -/

/-- The scraper's external collaborators: `render` as in
`clean_html_to_markdown`; `fetch article_id` is the outcome of
`fetch_article_content` for that id (`none` on a non-200 response, an
exception, or a missing `article` key); `now` is
`datetime.now().isoformat()` for this run. -/
structure ScrapeEnv where
  render : String → String
  fetch : String → Option ArticleJson
  now : String

/-- The body of `OptiSignsScraper.scrape_article` after
`article_id = article_info['id']`: fetch, convert the body to markdown,
fail on an empty result or on the header-only stub, otherwise build the
article record with its content hash. -/
def scrape_article_by_id (env : ScrapeEnv) (article_id : String) : Option ArticleData :=
  match env.fetch article_id with
  | none => none
  | some article =>
    let markdown := clean_html_to_markdown env.render article.body article.html_url
    if markdown = "" ∨ markdown = "Article URL: " ++ article.html_url ++ "\n\n" then
      none
    else
      some { markdown := markdown, hash := get_article_hash markdown,
             url := article.html_url, title := article.title,
             updated_at := article.updated_at, scraped_at := env.now }

/-- `OptiSignsScraper.scrape_article(article_info)`. -/
def scrape_article (env : ScrapeEnv) (article_info : Descriptor) : Option ArticleData :=
  scrape_article_by_id env article_info.id

/-! ## Change-Detection Engine: the `scrape_all` loop -/

/-- The mutable state of the `scrape_all` loop: the counters, the
`new_articles` delta list, the metadata dict, and the `articles/`
directory contents (`save_article` writes into it). -/
structure RunState where
  stats : Stats
  new_articles : List String
  metadata : Metadata
  cache : Cache
deriving Repr

/-- One iteration of the `scrape_all` loop for one descriptor: scrape,
classify against the metadata store, and update the state exactly as the
four branches of the source do.  Returns the classification together
with the successor state. -/
def processArticle (env : ScrapeEnv) (st : RunState) (article_info : Descriptor) : Classification × RunState :=
  match scrape_article env article_info with
  | none =>
    (.failed, { st with stats := { st.stats with failed := st.stats.failed + 1 } })
  | some article_data =>
    let article_id := article_info.id
    let filename := article_id ++ ".md"
    match lookupKey st.metadata article_id with
    | some old =>
      if old.hash ≠ article_data.hash then
        (.updated,
         { st with
             stats := { st.stats with updated := st.stats.updated + 1 },
             cache := setKey st.cache filename article_data.markdown,
             metadata := setKey st.metadata article_id
               { old with hash := article_data.hash, last_updated := article_data.scraped_at },
             new_articles := st.new_articles ++ [filename] })
      else
        (.unchanged, { st with stats := { st.stats with skipped := st.stats.skipped + 1 } })
    | none =>
      (.added,
       { st with
           stats := { st.stats with added := st.stats.added + 1 },
           cache := setKey st.cache filename article_data.markdown,
           metadata := setKey st.metadata article_id
             { hash := article_data.hash, url := article_data.url,
               title := article_data.title, filename := filename,
               last_updated := article_data.scraped_at },
           new_articles := st.new_articles ++ [filename] })

/-- The `scrape_all` loop over the truncated descriptor list. -/
def runAll (env : ScrapeEnv) : List Descriptor → RunState → RunState
  | [], st => st
  | d :: ds, st => runAll env ds (processArticle env st d).2

/-- The per-descriptor classification trace of the `scrape_all` loop:
the id of each processed descriptor paired with its classification, in
processing order. -/
def traceAll (env : ScrapeEnv) : List Descriptor → RunState → List (String × Classification)
  | [], _ => []
  | d :: ds, st => (d.id, (processArticle env st d).1) :: traceAll env ds (processArticle env st d).2

/-- The state `scrape_all` starts its loop from: zero counters, empty
`new_articles`, the metadata loaded by `load_metadata` and the existing
article cache. -/
def initState (store : Metadata) (cache : Cache) : RunState :=
  { stats := { added := 0, updated := 0, skipped := 0, failed := 0 },
    new_articles := [], metadata := store, cache := cache }

/-- `OptiSignsScraper.scrape_all(limit)`: list the catalog, early-return
an all-zero result (persisting nothing, so the store and cache are left
as they were) when no articles were found, otherwise process the first
`limit` descriptors and persist the final metadata via `save_metadata`.
The returned state carries the returned `(stats, new_articles)` pair
together with the persisted metadata store and article cache. -/
def scrape_all (env : ScrapeEnv) (pages : List PageResp) (limit : Nat) (store : Metadata) (cache : Cache) : RunState :=
  let all_articles := fetch_articles_list pages
  if all_articles = [] then
    initState store cache
  else
    runAll env (all_articles.take limit) (initState store cache)

/-! ## Delta Uploader: `upload_delta_files` -/

/-- One API call issued by the uploader, for effect tracing:
`registerFile` is `upload_file` (POST to the files endpoint),
`attachFile` is `add_file_to_vector_store` (POST to the vector store's
files endpoint), `deleteFile` is a file deletion call (never issued by
this code; present so that its absence is expressible). -/
inductive ApiCall where
  | registerFile (path : String)
  | attachFile (file_id : String)
  | deleteFile (file_id : String)
deriving DecidableEq, Repr

/-- The uploader's external collaborators: `register path` is the outcome
of `upload_file` (the new file object's id on success, `none` on a
non-200 response or exception); `attach file_id` is whether
`add_file_to_vector_store` returned a truthy response. -/
structure UploadEnv where
  register : String → Option String
  attach : String → Bool

/-- The dictionary `upload_delta_files` returns. -/
structure UploadResult where
  uploaded : Nat
  failed : Nat
  total : Nat
deriving DecidableEq, Repr

/-- One iteration of the `upload_delta_files` loop body for one path:
the success flag (`True` exactly when both `upload_file` and
`add_file_to_vector_store` succeeded) and the API calls issued.  On a
failed register the loop `continue`s without calling attach. -/
def upload_one (uenv : UploadEnv) (path : String) : Bool × List ApiCall :=
  match uenv.register path with
  | none => (false, [.registerFile path])
  | some fid => (uenv.attach fid, [.registerFile path, .attachFile fid])

/-- The counting loop of `upload_delta_files`: threads
`(uploaded_count, failed_count)` and the issued-call trace through the
paths in order. -/
def uploadLoop (uenv : UploadEnv) : List String → (Nat × Nat) × List ApiCall → (Nat × Nat) × List ApiCall
  | [], acc => acc
  | path :: rest, acc =>
    let r := upload_one uenv path
    uploadLoop uenv rest
      ((if r.1 then (acc.1.1 + 1, acc.1.2) else (acc.1.1, acc.1.2 + 1)), acc.2 ++ r.2)

/-- `VectorStoreManager.upload_delta_files(new_filenames, articles_dir)`:
early return of an all-zero result on an empty input; otherwise joins
each filename under `articles_dir`, uploads them in order, and returns
the counts together with `total = len(file_paths)`.  The second
component is the trace of API calls issued. -/
def upload_delta_files (uenv : UploadEnv) (articles_dir : String) (new_filenames : List String) : UploadResult × List ApiCall :=
  if new_filenames = [] then
    ({ uploaded := 0, failed := 0, total := 0 }, [])
  else
    let file_paths := new_filenames.map (fun f => articles_dir ++ "/" ++ f)
    let fin := uploadLoop uenv file_paths ((0, 0), [])
    ({ uploaded := fin.1.1, failed := fin.1.2, total := file_paths.length }, fin.2)

/-! ## Store lemmas -/

theorem lookupKey_setKey_self {α : Type} (m : List (String × α)) (k : String) (v : α) :
    lookupKey (setKey m k v) k = some v := by
  induction m with
  | nil => simp [setKey, lookupKey]
  | cons hd tl ih =>
    obtain ⟨k₁, v₁⟩ := hd
    by_cases hk : k₁ = k
    · simp [setKey, lookupKey, hk]
    · simp only [setKey, hk, if_false, lookupKey]
      exact ih

theorem lookupKey_setKey_ne {α : Type} (m : List (String × α)) (k : String) (v : α) (k' : String)
    (h : k' ≠ k) :
    lookupKey (setKey m k v) k' = lookupKey m k' := by
  have hne : ¬ k = k' := fun he => h he.symm
  induction m with
  | nil => simp [setKey, lookupKey, hne]
  | cons hd tl ih =>
    obtain ⟨k₁, v₁⟩ := hd
    by_cases hk : k₁ = k
    · subst hk
      simp [setKey, lookupKey, hne]
    · simp only [setKey, hk, if_false, lookupKey]
      by_cases hk' : k₁ = k'
      · simp [hk']
      · simp only [hk', if_false]
        exact ih

theorem lookupKey_setKey_isSome {α : Type} (m : List (String × α)) (k : String) (v : α) (k' : String)
    (h : (lookupKey m k').isSome = true) :
    (lookupKey (setKey m k v) k').isSome = true := by
  by_cases hk : k' = k
  · subst hk; rw [lookupKey_setKey_self]; rfl
  · rw [lookupKey_setKey_ne m k v k' hk]; exact h

/-! ## C7: the Source Lister -/

/-- C7: `fetch_articles_list` returns the concatenation, in page order,
of the items of the successfully fetched pages it consumed (first
conjunct: the result is the flattened items of a prefix of pages, all of
them successes); pagination stops on a page with zero items or with no
next page, and a non-success page terminates early with everything
accumulated so far (remaining conjuncts: the exact recursion of the
loop, covering the empty stream, a failed page, and a successful page
with its zero-item / has-next / no-next cases). -/
theorem fetch_articles_list_spec :
    (∀ pages : List PageResp, ∃ k, k ≤ pages.length ∧
        fetch_articles_list pages = ((pages.take k).map pageItems).flatten ∧
        ∀ p ∈ pages.take k, pageOk p = true) ∧
    fetch_articles_list [] = [] ∧
    (∀ rest, fetch_articles_list (PageResp.failure :: rest) = []) ∧
    (∀ items next rest, fetch_articles_list (PageResp.success items next :: rest) =
        if items = [] then []
        else if next then items ++ fetch_articles_list rest
        else items) := by
  refine ⟨?_, rfl, fun rest => rfl, fun items next rest => rfl⟩
  intro pages
  induction pages with
  | nil => exact ⟨0, by simp [fetch_articles_list]⟩
  | cons p rest ih =>
    cases p with
    | failure => exact ⟨0, by simp [fetch_articles_list]⟩
    | success items next =>
      by_cases hempty : items = []
      · exact ⟨0, by simp [fetch_articles_list, hempty]⟩
      · cases next with
        | false =>
          refine ⟨1, by simp, ?_, ?_⟩
          · simp [fetch_articles_list, hempty, pageItems]
          · intro q hq
            simp only [List.take_succ_cons, List.take_zero, List.mem_singleton] at hq
            subst hq; rfl
        | true =>
          obtain ⟨k, hk, heq, hok⟩ := ih
          refine ⟨k + 1, by simpa using hk, ?_, ?_⟩
          · simp [fetch_articles_list, hempty, pageItems, heq]
          · intro q hq
            simp only [List.take_succ_cons, List.mem_cons] at hq
            rcases hq with hq | hq
            · subst hq; rfl
            · exact hok q hq

/-! ## Uploader lemmas, C9 and C6 -/

theorem uploadLoop_spec (uenv : UploadEnv) :
    ∀ (paths : List String) (a b : Nat) (tr : List ApiCall),
      uploadLoop uenv paths ((a, b), tr) =
        ((a + (paths.map (fun p => (upload_one uenv p).1)).count true,
          b + (paths.map (fun p => (upload_one uenv p).1)).count false),
         tr ++ (paths.map (fun p => (upload_one uenv p).2)).flatten) := by
  intro paths
  induction paths with
  | nil => intro a b tr; simp [uploadLoop]
  | cons path rest ih =>
    intro a b tr
    cases hr : (upload_one uenv path).1 with
    | true =>
      simp [uploadLoop, hr, ih, List.count_cons, List.append_assoc, Prod.mk.injEq]
      omega
    | false =>
      simp [uploadLoop, hr, ih, List.count_cons, List.append_assoc, Prod.mk.injEq]
      omega

theorem upload_delta_files_spec (uenv : UploadEnv) (dir : String) (fns : List String) :
    upload_delta_files uenv dir fns =
      ({ uploaded := (fns.map (fun f => (upload_one uenv (dir ++ "/" ++ f)).1)).count true,
         failed := (fns.map (fun f => (upload_one uenv (dir ++ "/" ++ f)).1)).count false,
         total := fns.length },
       (fns.map (fun f => (upload_one uenv (dir ++ "/" ++ f)).2)).flatten) := by
  unfold upload_delta_files
  by_cases h : fns = []
  · subst h; simp
  · rw [if_neg h]
    show (({ uploaded := (uploadLoop uenv (fns.map (fun f => dir ++ "/" ++ f)) ((0, 0), [])).1.1,
             failed := (uploadLoop uenv (fns.map (fun f => dir ++ "/" ++ f)) ((0, 0), [])).1.2,
             total := (fns.map (fun f => dir ++ "/" ++ f)).length } : UploadResult),
          (uploadLoop uenv (fns.map (fun f => dir ++ "/" ++ f)) ((0, 0), [])).2) = _
    rw [uploadLoop_spec]
    simp only [List.map_map, List.length_map, Nat.zero_add]
    rfl

theorem count_true_add_count_false (l : List Bool) :
    l.count true + l.count false = l.length := by
  induction l with
  | nil => rfl
  | cons b rest ih =>
    cases b <;> simp [List.count_cons] <;> omega

/-- C9: `upload_delta_files` accounts for every input filename exactly
once: `uploaded + failed = total` and `total` is the length of the input
list, whatever the register / attach outcomes, including the empty
input. -/
theorem upload_delta_files_counts (uenv : UploadEnv) (dir : String) (fns : List String) :
    (upload_delta_files uenv dir fns).1.uploaded + (upload_delta_files uenv dir fns).1.failed
        = (upload_delta_files uenv dir fns).1.total ∧
    (upload_delta_files uenv dir fns).1.total = fns.length := by
  rw [upload_delta_files_spec]
  have h := count_true_add_count_false (fns.map (fun f => (upload_one uenv (dir ++ "/" ++ f)).1))
  rw [List.length_map] at h
  exact ⟨h, rfl⟩

theorem upload_one_no_delete (uenv : UploadEnv) (path : String) (f : String) :
    ApiCall.deleteFile f ∉ (upload_one uenv path).2 := by
  unfold upload_one
  cases uenv.register path <;> simp

theorem upload_one_registers (uenv : UploadEnv) (path : String) :
    ApiCall.registerFile path ∈ (upload_one uenv path).2 := by
  unfold upload_one
  cases uenv.register path <;> simp

/-- C6: if for some input filename the register step succeeds but the
attach step fails, that item's outcome is a failure and the failed count
is positive; no delete of the registered remote object is ever issued
(the call trace holds no `deleteFile` at all); and every filename in the
list — in particular every subsequent one — still gets its own register
attempt. -/
theorem upload_delta_files_attach_failure (uenv : UploadEnv) (dir : String)
    (fns : List String) (i : Nat) (fid : String) (hi : i < fns.length)
    (hreg : uenv.register (dir ++ "/" ++ fns.get ⟨i, hi⟩) = some fid)
    (hatt : uenv.attach fid = false) :
    (upload_one uenv (dir ++ "/" ++ fns.get ⟨i, hi⟩)).1 = false ∧
    1 ≤ (upload_delta_files uenv dir fns).1.failed ∧
    (∀ f, ApiCall.deleteFile f ∉ (upload_delta_files uenv dir fns).2) ∧
    (∀ j (hj : j < fns.length),
      ApiCall.registerFile (dir ++ "/" ++ fns.get ⟨j, hj⟩) ∈ (upload_delta_files uenv dir fns).2) := by
  have hone : (upload_one uenv (dir ++ "/" ++ fns.get ⟨i, hi⟩)).1 = false := by
    unfold upload_one
    rw [hreg]
    exact hatt
  refine ⟨hone, ?_, ?_, ?_⟩
  · have hmem : false ∈ fns.map (fun f => (upload_one uenv (dir ++ "/" ++ f)).1) :=
      List.mem_map.mpr ⟨fns.get ⟨i, hi⟩, List.get_mem fns i hi, hone⟩
    have hpos := List.count_pos_iff.mpr hmem
    rw [upload_delta_files_spec]
    simpa using hpos
  · intro f hf
    rw [upload_delta_files_spec] at hf
    simp only [List.mem_flatten, List.mem_map] at hf
    obtain ⟨s, ⟨g, _, hs⟩, hmem⟩ := hf
    rw [← hs] at hmem
    exact upload_one_no_delete uenv (dir ++ "/" ++ g) f hmem
  · intro j hj
    rw [upload_delta_files_spec]
    simp only [List.mem_flatten]
    refine ⟨(upload_one uenv (dir ++ "/" ++ fns.get ⟨j, hj⟩)).2, ?_,
      upload_one_registers uenv (dir ++ "/" ++ fns.get ⟨j, hj⟩)⟩
    exact List.mem_map.mpr ⟨fns.get ⟨j, hj⟩, List.get_mem fns j hj, rfl⟩

/-- A concrete uploader environment for exercising the attach-failure
path: register always succeeds with file id f1, attach always fails. -/
def uenvAttachFail : UploadEnv :=
  { register := fun _ => some "f1", attach := fun _ => false }

/-- C6 witness: the attach-failure theorem applied to a concrete
two-file upload whose attach step always fails. -/
theorem upload_delta_files_attach_failure_w :
    (0 < (["a.md", "b.md"] : List String).length) ∧
    uenvAttachFail.register ("articles" ++ "/" ++ (["a.md", "b.md"] : List String).get ⟨0, by decide⟩) = some "f1" ∧
    uenvAttachFail.attach "f1" = false ∧
    ((upload_one uenvAttachFail ("articles" ++ "/" ++ (["a.md", "b.md"] : List String).get ⟨0, by decide⟩)).1 = false ∧
     1 ≤ (upload_delta_files uenvAttachFail "articles" ["a.md", "b.md"]).1.failed ∧
     (∀ f, ApiCall.deleteFile f ∉ (upload_delta_files uenvAttachFail "articles" ["a.md", "b.md"]).2) ∧
     (∀ j (hj : j < (["a.md", "b.md"] : List String).length),
       ApiCall.registerFile ("articles" ++ "/" ++ (["a.md", "b.md"] : List String).get ⟨j, hj⟩)
         ∈ (upload_delta_files uenvAttachFail "articles" ["a.md", "b.md"]).2)) :=
  ⟨by decide, rfl, rfl,
   upload_delta_files_attach_failure uenvAttachFail "articles" ["a.md", "b.md"] 0 "f1"
     (by decide) rfl rfl⟩

/-! ## Engine step lemmas -/

theorem processArticle_failed_eq (env : ScrapeEnv) (st : RunState) (d : Descriptor)
    (h : scrape_article_by_id env d.id = none) :
    processArticle env st d =
      (.failed, { st with stats := { st.stats with failed := st.stats.failed + 1 } }) := by
  unfold processArticle scrape_article
  rw [h]

theorem processArticle_added_eq (env : ScrapeEnv) (st : RunState) (d : Descriptor)
    (ad : ArticleData) (h1 : scrape_article_by_id env d.id = some ad)
    (h2 : lookupKey st.metadata d.id = none) :
    processArticle env st d =
      (.added,
       { st with
           stats := { st.stats with added := st.stats.added + 1 },
           cache := setKey st.cache (d.id ++ ".md") ad.markdown,
           metadata := setKey st.metadata d.id
             { hash := ad.hash, url := ad.url, title := ad.title,
               filename := d.id ++ ".md", last_updated := ad.scraped_at },
           new_articles := st.new_articles ++ [d.id ++ ".md"] }) := by
  unfold processArticle scrape_article
  rw [h1]
  simp only [h2]

theorem processArticle_updated_eq (env : ScrapeEnv) (st : RunState) (d : Descriptor)
    (ad : ArticleData) (old : FingerprintRecord)
    (h1 : scrape_article_by_id env d.id = some ad)
    (h2 : lookupKey st.metadata d.id = some old)
    (h3 : old.hash ≠ ad.hash) :
    processArticle env st d =
      (.updated,
       { st with
           stats := { st.stats with updated := st.stats.updated + 1 },
           cache := setKey st.cache (d.id ++ ".md") ad.markdown,
           metadata := setKey st.metadata d.id
             { old with hash := ad.hash, last_updated := ad.scraped_at },
           new_articles := st.new_articles ++ [d.id ++ ".md"] }) := by
  unfold processArticle scrape_article
  rw [h1]
  simp only [h2, h3, ne_eq, not_false_eq_true, if_true]

theorem processArticle_unchanged_eq (env : ScrapeEnv) (st : RunState) (d : Descriptor)
    (ad : ArticleData) (old : FingerprintRecord)
    (h1 : scrape_article_by_id env d.id = some ad)
    (h2 : lookupKey st.metadata d.id = some old)
    (h3 : old.hash = ad.hash) :
    processArticle env st d =
      (.unchanged, { st with stats := { st.stats with skipped := st.stats.skipped + 1 } }) := by
  unfold processArticle scrape_article
  rw [h1]
  simp only [h2, h3, ne_eq, not_true_eq_false, if_false]

/-- Every possible shape of one engine step, for case analysis. -/
theorem processArticle_shape (env : ScrapeEnv) (st : RunState) (d : Descriptor) :
    (scrape_article_by_id env d.id = none ∧
     processArticle env st d =
       (.failed, { st with stats := { st.stats with failed := st.stats.failed + 1 } })) ∨
    (∃ ad, scrape_article_by_id env d.id = some ad ∧
      lookupKey st.metadata d.id = none ∧
      processArticle env st d =
        (.added,
         { st with
             stats := { st.stats with added := st.stats.added + 1 },
             cache := setKey st.cache (d.id ++ ".md") ad.markdown,
             metadata := setKey st.metadata d.id
               { hash := ad.hash, url := ad.url, title := ad.title,
                 filename := d.id ++ ".md", last_updated := ad.scraped_at },
             new_articles := st.new_articles ++ [d.id ++ ".md"] })) ∨
    (∃ ad old, scrape_article_by_id env d.id = some ad ∧
      lookupKey st.metadata d.id = some old ∧ old.hash ≠ ad.hash ∧
      processArticle env st d =
        (.updated,
         { st with
             stats := { st.stats with updated := st.stats.updated + 1 },
             cache := setKey st.cache (d.id ++ ".md") ad.markdown,
             metadata := setKey st.metadata d.id
               { old with hash := ad.hash, last_updated := ad.scraped_at },
             new_articles := st.new_articles ++ [d.id ++ ".md"] })) ∨
    (∃ ad old, scrape_article_by_id env d.id = some ad ∧
      lookupKey st.metadata d.id = some old ∧ old.hash = ad.hash ∧
      processArticle env st d =
        (.unchanged, { st with stats := { st.stats with skipped := st.stats.skipped + 1 } })) := by
  cases hs : scrape_article_by_id env d.id with
  | none => exact Or.inl ⟨rfl, processArticle_failed_eq env st d hs⟩
  | some ad =>
    cases hl : lookupKey st.metadata d.id with
    | none => exact Or.inr (Or.inl ⟨ad, rfl, rfl, processArticle_added_eq env st d ad hs hl⟩)
    | some old =>
      by_cases hh : old.hash = ad.hash
      · exact Or.inr (Or.inr (Or.inr
          ⟨ad, old, rfl, rfl, hh, processArticle_unchanged_eq env st d ad old hs hl hh⟩))
      · exact Or.inr (Or.inr (Or.inl
          ⟨ad, old, rfl, rfl, hh, processArticle_updated_eq env st d ad old hs hl hh⟩))

/-! ## C4: failed articles mutate nothing and never abort the run -/

theorem scrape_article_by_id_none (env : ScrapeEnv) (i : String)
    (h : env.fetch i = none ∨ ∃ a, env.fetch i = some a ∧
      (clean_html_to_markdown env.render a.body a.html_url = "" ∨
       clean_html_to_markdown env.render a.body a.html_url = "Article URL: " ++ a.html_url ++ "\n\n")) :
    scrape_article_by_id env i = none := by
  unfold scrape_article_by_id
  rcases h with h | ⟨a, ha, hmd⟩
  · rw [h]
  · rw [ha]
    simp only [if_pos hmd]

/-- C4: a descriptor whose content fetch fails, or whose normalization
yields the empty string or the header-only stub, is classified `Failed`
by the `scrape_all` step; the metadata store, the article cache and the
DeltaSet are all left untouched for it (only the failed counter moves),
and the loop simply continues with the remaining descriptors. -/
theorem scrape_all_failed_frame (env : ScrapeEnv) (st : RunState) (d : Descriptor)
    (ds : List Descriptor)
    (h : env.fetch d.id = none ∨ ∃ a, env.fetch d.id = some a ∧
      (clean_html_to_markdown env.render a.body a.html_url = "" ∨
       clean_html_to_markdown env.render a.body a.html_url = "Article URL: " ++ a.html_url ++ "\n\n")) :
    (processArticle env st d).1 = Classification.failed ∧
    (processArticle env st d).2.metadata = st.metadata ∧
    (processArticle env st d).2.cache = st.cache ∧
    (processArticle env st d).2.new_articles = st.new_articles ∧
    (processArticle env st d).2.stats = { st.stats with failed := st.stats.failed + 1 } ∧
    runAll env (d :: ds) st = runAll env ds (processArticle env st d).2 ∧
    traceAll env (d :: ds) st = (d.id, Classification.failed) :: traceAll env ds (processArticle env st d).2 := by
  have hn := scrape_article_by_id_none env d.id h
  have he := processArticle_failed_eq env st d hn
  refine ⟨?_, ?_, ?_, ?_, ?_, rfl, ?_⟩
  · rw [he]
  · rw [he]
  · rw [he]
  · rw [he]
  · rw [he]
  · simp [traceAll, he]

/-- A concrete environment whose content fetch always fails. -/
def envFetchFail : ScrapeEnv :=
  { render := fun s => s, fetch := fun _ => none, now := "T0" }

/-- C4 witness: the failed-article frame theorem applied to a concrete
descriptor whose fetch returns nothing. -/
theorem scrape_all_failed_frame_w :
    (envFetchFail.fetch "7" = none ∨ ∃ a, envFetchFail.fetch "7" = some a ∧
      (clean_html_to_markdown envFetchFail.render a.body a.html_url = "" ∨
       clean_html_to_markdown envFetchFail.render a.body a.html_url = "Article URL: " ++ a.html_url ++ "\n\n")) ∧
    ((processArticle envFetchFail (initState [] []) { id := "7", title := "t" }).1 = Classification.failed ∧
     (processArticle envFetchFail (initState [] []) { id := "7", title := "t" }).2.metadata = (initState [] []).metadata ∧
     (processArticle envFetchFail (initState [] []) { id := "7", title := "t" }).2.cache = (initState [] []).cache ∧
     (processArticle envFetchFail (initState [] []) { id := "7", title := "t" }).2.new_articles = (initState [] []).new_articles ∧
     (processArticle envFetchFail (initState [] []) { id := "7", title := "t" }).2.stats
        = { (initState [] []).stats with failed := (initState [] []).stats.failed + 1 } ∧
     runAll envFetchFail [{ id := "7", title := "t" }] (initState [] [])
        = runAll envFetchFail [] (processArticle envFetchFail (initState [] []) { id := "7", title := "t" }).2 ∧
     traceAll envFetchFail [{ id := "7", title := "t" }] (initState [] [])
        = ("7", Classification.failed)
            :: traceAll envFetchFail [] (processArticle envFetchFail (initState [] []) { id := "7", title := "t" }).2) :=
  ⟨Or.inl rfl,
   scrape_all_failed_frame envFetchFail (initState [] []) { id := "7", title := "t" } [] (Or.inl rfl)⟩

/-! ## C5: updated articles -/

/-- C5: a descriptor whose id is already in the store and whose freshly
computed fingerprint differs from the stored one is classified
`Updated`; the cached file for its filename is overwritten with the new
markdown, its store record keeps its `url`, `title` and `filename`
fields and changes exactly the `hash` and `last_updated` fields, and the
filename is appended to the DeltaSet. -/
theorem scrape_all_updated_frame (env : ScrapeEnv) (st : RunState) (d : Descriptor)
    (ad : ArticleData) (old : FingerprintRecord)
    (h1 : lookupKey st.metadata d.id = some old)
    (h2 : scrape_article_by_id env d.id = some ad)
    (h3 : old.hash ≠ ad.hash) :
    (processArticle env st d).1 = Classification.updated ∧
    (processArticle env st d).2.metadata = setKey st.metadata d.id
      { hash := ad.hash, url := old.url, title := old.title,
        filename := old.filename, last_updated := ad.scraped_at } ∧
    lookupKey (processArticle env st d).2.metadata d.id = some
      { hash := ad.hash, url := old.url, title := old.title,
        filename := old.filename, last_updated := ad.scraped_at } ∧
    (processArticle env st d).2.cache = setKey st.cache (d.id ++ ".md") ad.markdown ∧
    (processArticle env st d).2.new_articles = st.new_articles ++ [d.id ++ ".md"] ∧
    (processArticle env st d).2.stats = { st.stats with updated := st.stats.updated + 1 } := by
  have he := processArticle_updated_eq env st d ad old h2 h1 h3
  rw [he]
  refine ⟨rfl, rfl, ?_, rfl, rfl, rfl⟩
  exact lookupKey_setKey_self st.metadata d.id _

/-- A concrete environment whose fetch always succeeds with the same
body: the resulting markdown is "Article URL: u", a blank line, and
"hello", whose digest is 9106212. -/
def envHello : ScrapeEnv :=
  { render := fun _ => "hello",
    fetch := fun _ => some { body := "<p>x</p>", html_url := "u", title := "T", updated_at := "ts" },
    now := "NOW" }

/-- The article data `envHello` produces for any id. -/
def adHello : ArticleData :=
  { markdown := "Article URL: u\n\nhello", hash := "9106212", url := "u",
    title := "T", updated_at := "ts", scraped_at := "NOW" }

/-- A stale store record for article 1 whose fingerprint differs from
the one `envHello` computes. -/
def oldStale : FingerprintRecord :=
  { hash := "stale", url := "u0", title := "T0", filename := "1.md", last_updated := "t0" }

/-- C5 witness: the updated-article theorem applied to a store holding a
stale fingerprint for article 1. -/
theorem scrape_all_updated_frame_w :
    lookupKey (initState [("1", oldStale)] []).metadata "1" = some oldStale ∧
    scrape_article_by_id envHello "1" = some adHello ∧
    oldStale.hash ≠ adHello.hash ∧
    ((processArticle envHello (initState [("1", oldStale)] []) { id := "1", title := "A" }).1 = Classification.updated ∧
     (processArticle envHello (initState [("1", oldStale)] []) { id := "1", title := "A" }).2.metadata
        = setKey (initState [("1", oldStale)] []).metadata "1"
            { hash := adHello.hash, url := oldStale.url, title := oldStale.title,
              filename := oldStale.filename, last_updated := adHello.scraped_at } ∧
     lookupKey (processArticle envHello (initState [("1", oldStale)] []) { id := "1", title := "A" }).2.metadata "1"
        = some { hash := adHello.hash, url := oldStale.url, title := oldStale.title,
                 filename := oldStale.filename, last_updated := adHello.scraped_at } ∧
     (processArticle envHello (initState [("1", oldStale)] []) { id := "1", title := "A" }).2.cache
        = setKey (initState [("1", oldStale)] []).cache ("1" ++ ".md") adHello.markdown ∧
     (processArticle envHello (initState [("1", oldStale)] []) { id := "1", title := "A" }).2.new_articles
        = (initState [("1", oldStale)] []).new_articles ++ ["1" ++ ".md"] ∧
     (processArticle envHello (initState [("1", oldStale)] []) { id := "1", title := "A" }).2.stats
        = { (initState [("1", oldStale)] []).stats with
              updated := (initState [("1", oldStale)] []).stats.updated + 1 }) :=
  ⟨rfl, by decide, by decide,
   scrape_all_updated_frame envHello (initState [("1", oldStale)] []) { id := "1", title := "A" }
     adHello oldStale rfl (by decide) (by decide)⟩

/-! ## C1: the DeltaSet is exactly the Added/Updated filenames -/

/-- The filenames a classification trace contributes to the DeltaSet:
one `id.md` entry per Added or Updated classification, in order. -/
def deltaOf (tr : List (String × Classification)) : List String :=
  tr.filterMap (fun p =>
    if p.2 = Classification.added ∨ p.2 = Classification.updated then some (p.1 ++ ".md")
    else none)

theorem processArticle_delta (env : ScrapeEnv) (st : RunState) (d : Descriptor) :
    (processArticle env st d).2.new_articles =
      st.new_articles ++
        (if (processArticle env st d).1 = Classification.added ∨
            (processArticle env st d).1 = Classification.updated
         then [d.id ++ ".md"] else []) ∧
    (processArticle env st d).2.stats.added =
      st.stats.added + (if (processArticle env st d).1 = Classification.added then 1 else 0) ∧
    (processArticle env st d).2.stats.updated =
      st.stats.updated + (if (processArticle env st d).1 = Classification.updated then 1 else 0) := by
  rcases processArticle_shape env st d with ⟨_, he⟩ | ⟨ad, _, _, he⟩ |
    ⟨ad, old, _, _, _, he⟩ | ⟨ad, old, _, _, _, he⟩ <;> rw [he] <;> simp

theorem runAll_delta (env : ScrapeEnv) :
    ∀ (ds : List Descriptor) (st : RunState),
      (runAll env ds st).new_articles = st.new_articles ++ deltaOf (traceAll env ds st) ∧
      (runAll env ds st).stats.added =
        st.stats.added + ((traceAll env ds st).map Prod.snd).count Classification.added ∧
      (runAll env ds st).stats.updated =
        st.stats.updated + ((traceAll env ds st).map Prod.snd).count Classification.updated := by
  intro ds
  induction ds with
  | nil => intro st; simp [runAll, traceAll, deltaOf]
  | cons d ds ih =>
    intro st
    obtain ⟨h1, h2, h3⟩ := processArticle_delta env st d
    obtain ⟨i1, i2, i3⟩ := ih (processArticle env st d).2
    refine ⟨?_, ?_, ?_⟩
    · by_cases hc : (processArticle env st d).1 = Classification.added ∨
          (processArticle env st d).1 = Classification.updated
      · simp only [runAll, traceAll, i1, h1, hc, if_true, deltaOf, List.filterMap_cons]
        simp [hc, List.append_assoc, deltaOf]
      · simp only [runAll, traceAll, i1, h1, hc, if_false, deltaOf, List.filterMap_cons]
        simp [hc, deltaOf]
    · by_cases hca : (processArticle env st d).1 = Classification.added
      · simp only [runAll, traceAll, i2, h2, hca, if_true, List.map_cons, List.count_cons]
        simp
        omega
      · simp only [runAll, traceAll, i2, h2, hca, if_false, List.map_cons, List.count_cons]
        simp [hca]
    · by_cases hcu : (processArticle env st d).1 = Classification.updated
      · simp only [runAll, traceAll, i3, h3, hcu, if_true, List.map_cons, List.count_cons]
        simp
        omega
      · simp only [runAll, traceAll, i3, h3, hcu, if_false, List.map_cons, List.count_cons]
        simp [hcu]

theorem deltaOf_length (tr : List (String × Classification)) :
    (deltaOf tr).length =
      (tr.map Prod.snd).count Classification.added +
        (tr.map Prod.snd).count Classification.updated := by
  induction tr with
  | nil => rfl
  | cons p rest ih =>
    obtain ⟨i, c⟩ := p
    cases c <;> simp [deltaOf, List.filterMap_cons, List.count_cons] at ih ⊢ <;> omega

theorem traceAll_ids (env : ScrapeEnv) :
    ∀ (ds : List Descriptor) (st : RunState),
      (traceAll env ds st).map Prod.fst = ds.map Descriptor.id := by
  intro ds
  induction ds with
  | nil => intro st; rfl
  | cons d ds ih => intro st; simp [traceAll, ih]

theorem mem_keyed_nodup {β : Type} :
    ∀ (l : List (String × β)), (l.map Prod.fst).Nodup →
      ∀ (a : String) (b b' : β), (a, b) ∈ l → (a, b') ∈ l → b = b' := by
  intro l
  induction l with
  | nil => intro _ a b b' h; simp at h
  | cons hd tl ih =>
    intro hnd a b b' hb hb'
    obtain ⟨k₁, v₁⟩ := hd
    simp only [List.map_cons, List.nodup_cons] at hnd
    obtain ⟨hk, hnd'⟩ := hnd
    rcases List.mem_cons.mp hb with he | hb
    · rcases List.mem_cons.mp hb' with he' | hb'
      · rw [Prod.mk.injEq] at he he'
        rw [he.2, he'.2]
      · exfalso
        apply hk
        rw [Prod.mk.injEq] at he
        rw [← he.1]
        exact List.mem_map.mpr ⟨(a, b'), hb', rfl⟩
    · rcases List.mem_cons.mp hb' with he' | hb'
      · exfalso
        apply hk
        rw [Prod.mk.injEq] at he'
        rw [← he'.1]
        exact List.mem_map.mpr ⟨(a, b), hb, rfl⟩
      · exact ih hnd' a b b' hb hb'

theorem append_md_inj (a b : String) (h : a ++ ".md" = b ++ ".md") : a = b := by
  have hd : a.data ++ ".md".data = b.data ++ ".md".data := by
    have hc := congrArg String.data h
    simpa [String.data_append] using hc
  have hlen : a.data.length = b.data.length := by
    have hl := congrArg List.length hd
    rw [List.length_append, List.length_append] at hl
    omega
  exact String.ext (List.append_inj_left hd hlen)

/-- `scrape_all` is the loop run from the initial state: the early
return on an empty catalog coincides with running the loop on the empty
descriptor list. -/
theorem scrape_all_eq_runAll (env : ScrapeEnv) (pages : List PageResp) (limit : Nat)
    (store : Metadata) (cache : Cache) :
    scrape_all env pages limit store cache =
      runAll env ((fetch_articles_list pages).take limit) (initState store cache) := by
  unfold scrape_all
  by_cases h : fetch_articles_list pages = []
  · rw [if_pos h, h]
    simp [List.take_nil, runAll]
  · rw [if_neg h]

/-- C1 (amended): over a run whose processed descriptors have pairwise
distinct ids, the returned DeltaSet is exactly the `id.md` filenames of
the Added and Updated classifications in processing order, its length is
`added + updated`, and no id classified Unchanged or Failed has its
filename in it.  (Without the distinctness hypothesis the first two
conjuncts still hold, but a duplicated catalog entry can be classified
Added at its first occurrence and Unchanged at its second, putting a
filename of an Unchanged-classified article into the DeltaSet — see the
counterexample.) -/
theorem scrape_all_deltaSet (env : ScrapeEnv) (pages : List PageResp) (limit : Nat)
    (store : Metadata) (cache : Cache)
    (hids : ((((fetch_articles_list pages).take limit)).map Descriptor.id).Nodup) :
    (scrape_all env pages limit store cache).new_articles
        = deltaOf (traceAll env ((fetch_articles_list pages).take limit) (initState store cache)) ∧
    (scrape_all env pages limit store cache).new_articles.length
        = (scrape_all env pages limit store cache).stats.added
            + (scrape_all env pages limit store cache).stats.updated ∧
    (∀ i c, (i, c) ∈ traceAll env ((fetch_articles_list pages).take limit) (initState store cache) →
      (c = Classification.unchanged ∨ c = Classification.failed) →
      i ++ ".md" ∉ (scrape_all env pages limit store cache).new_articles) := by
  rw [scrape_all_eq_runAll]
  obtain ⟨h1, h2, h3⟩ := runAll_delta env ((fetch_articles_list pages).take limit) (initState store cache)
  have hnew : (runAll env ((fetch_articles_list pages).take limit) (initState store cache)).new_articles
      = deltaOf (traceAll env ((fetch_articles_list pages).take limit) (initState store cache)) := by
    simpa [initState] using h1
  refine ⟨hnew, ?_, ?_⟩
  · rw [hnew, h2, h3, deltaOf_length]
    simp [initState]
  · intro i c hmem hcls hcontra
    rw [hnew] at hcontra
    unfold deltaOf at hcontra
    obtain ⟨⟨i', c'⟩, hmem', heq⟩ := List.mem_filterMap.mp hcontra
    by_cases hcond : c' = Classification.added ∨ c' = Classification.updated
    · rw [if_pos hcond] at heq
      have hii : i' = i := append_md_inj i' i (Option.some.inj heq)
      subst hii
      have hkeys : ((traceAll env ((fetch_articles_list pages).take limit)
          (initState store cache)).map Prod.fst).Nodup := by
        rw [traceAll_ids]
        exact hids
      have hcc := mem_keyed_nodup _ hkeys i' c c' hmem hmem'
      rcases hcls with hcls | hcls <;> rcases hcond with hcond | hcond <;>
        rw [hcls, hcond] at hcc <;> exact Classification.noConfusion hcc
    · rw [if_neg hcond] at heq
      exact Option.noConfusion heq

/-- The duplicated catalog page used by the C1 counterexample: the same
article id listed twice in one run. -/
def pagesDup : List PageResp :=
  [.success [{ id := "1", title := "A" }, { id := "1", title := "A" }] false]

/-- C1 counterexample: with a catalog that lists article 1 twice, the
first occurrence is classified Added and the second Unchanged, yet the
DeltaSet holds the filename of that Unchanged-classified article — so
"no filename of an article classified Unchanged or Failed appears in the
DeltaSet" fails as stated. -/
theorem scrape_all_deltaSet_cex :
    ("1", Classification.unchanged)
        ∈ traceAll envHello ((fetch_articles_list pagesDup).take 2) (initState [] []) ∧
    "1" ++ ".md" ∈ (scrape_all envHello pagesDup 2 [] []).new_articles := by
  constructor
  · decide
  · decide

/-- C1 witness: the amended DeltaSet theorem applied to a concrete run
with two distinct article ids. -/
theorem scrape_all_deltaSet_w :
    (((((fetch_articles_list [PageResp.success [{ id := "1", title := "A" }, { id := "2", title := "B" }] false]).take 2)).map Descriptor.id).Nodup) ∧
    ((scrape_all envHello [PageResp.success [{ id := "1", title := "A" }, { id := "2", title := "B" }] false] 2 [] []).new_articles
        = deltaOf (traceAll envHello ((fetch_articles_list [PageResp.success [{ id := "1", title := "A" }, { id := "2", title := "B" }] false]).take 2) (initState [] [])) ∧
     (scrape_all envHello [PageResp.success [{ id := "1", title := "A" }, { id := "2", title := "B" }] false] 2 [] []).new_articles.length
        = (scrape_all envHello [PageResp.success [{ id := "1", title := "A" }, { id := "2", title := "B" }] false] 2 [] []).stats.added
            + (scrape_all envHello [PageResp.success [{ id := "1", title := "A" }, { id := "2", title := "B" }] false] 2 [] []).stats.updated ∧
     (∀ i c, (i, c) ∈ traceAll envHello ((fetch_articles_list [PageResp.success [{ id := "1", title := "A" }, { id := "2", title := "B" }] false]).take 2) (initState [] []) →
       (c = Classification.unchanged ∨ c = Classification.failed) →
       i ++ ".md" ∉ (scrape_all envHello [PageResp.success [{ id := "1", title := "A" }, { id := "2", title := "B" }] false] 2 [] []).new_articles)) :=
  ⟨by decide,
   scrape_all_deltaSet envHello
     [PageResp.success [{ id := "1", title := "A" }, { id := "2", title := "B" }] false] 2 [] []
     (by decide)⟩

/-! ## C2: identical content on a second run is Unchanged -/

theorem scrape_hash_consistent (env : ScrapeEnv) (i : String) (ad : ArticleData)
    (h : scrape_article_by_id env i = some ad) :
    ad.hash = get_article_hash ad.markdown := by
  unfold scrape_article_by_id at h
  cases hf : env.fetch i with
  | none => rw [hf] at h; exact Option.noConfusion h
  | some a =>
    simp only [hf] at h
    split at h
    · exact Option.noConfusion h
    · rw [← Option.some.inj h]

theorem processArticle_metadata_other (env : ScrapeEnv) (st : RunState) (d : Descriptor)
    (X : String) (h : d.id ≠ X) :
    lookupKey (processArticle env st d).2.metadata X = lookupKey st.metadata X := by
  have hne : X ≠ d.id := fun hx => h hx.symm
  rcases processArticle_shape env st d with ⟨_, he⟩ | ⟨ad, _, _, he⟩ |
      ⟨ad, old, _, _, _, he⟩ | ⟨ad, old, _, _, _, he⟩
  · rw [he]
  · rw [he]; exact lookupKey_setKey_ne _ _ _ X hne
  · rw [he]; exact lookupKey_setKey_ne _ _ _ X hne
  · rw [he]

theorem processArticle_new_mem (env : ScrapeEnv) (st : RunState) (d : Descriptor) (f : String)
    (hmem : f ∈ (processArticle env st d).2.new_articles) :
    f ∈ st.new_articles ∨ f = d.id ++ ".md" := by
  rcases processArticle_shape env st d with ⟨_, he⟩ | ⟨ad, _, _, he⟩ |
      ⟨ad, old, _, _, _, he⟩ | ⟨ad, old, _, _, _, he⟩ <;> rw [he] at hmem
  · exact Or.inl hmem
  · rcases List.mem_append.mp hmem with hin | hin
    · exact Or.inl hin
    · exact Or.inr (List.mem_singleton.mp hin)
  · rcases List.mem_append.mp hmem with hin | hin
    · exact Or.inl hin
    · exact Or.inr (List.mem_singleton.mp hin)
  · exact Or.inl hmem

/-- Once the stored fingerprint for `X` equals the fingerprint the run
computes for `X`, the rest of the run preserves `X`'s record exactly:
`X`'s own occurrences take the Unchanged branch and other descriptors
only touch their own keys. -/
theorem runAll_preserve (env : ScrapeEnv) (X : String) (ad : ArticleData)
    (h : scrape_article_by_id env X = some ad) :
    ∀ (ds : List Descriptor) (st : RunState) (r : FingerprintRecord),
      lookupKey st.metadata X = some r → r.hash = ad.hash →
      lookupKey (runAll env ds st).metadata X = some r := by
  intro ds
  induction ds with
  | nil => intro st r hr _; exact hr
  | cons d ds ih =>
    intro st r hr hh
    show lookupKey (runAll env ds (processArticle env st d).2).metadata X = some r
    by_cases hd : d.id = X
    · have hs : scrape_article_by_id env d.id = some ad := by rw [hd]; exact h
      have hl : lookupKey st.metadata d.id = some r := by rw [hd]; exact hr
      have he := processArticle_unchanged_eq env st d ad r hs hl hh
      apply ih _ r _ hh
      rw [he]
      exact hr
    · have hm := processArticle_metadata_other env st d X hd
      apply ih _ r _ hh
      rw [hm]
      exact hr

/-- An engine step whose descriptor is `X` and whose classification is
Added or Updated leaves `X`'s record holding the fingerprint the run
computes for `X`. -/
theorem processArticle_write_hash (env : ScrapeEnv) (X : String) (ad : ArticleData)
    (h : scrape_article_by_id env X = some ad) (st : RunState) (d : Descriptor)
    (hX : d.id = X)
    (hcls : (processArticle env st d).1 = Classification.added ∨
            (processArticle env st d).1 = Classification.updated) :
    ∃ r, lookupKey (processArticle env st d).2.metadata X = some r ∧ r.hash = ad.hash := by
  subst hX
  rcases processArticle_shape env st d with ⟨hn, he⟩ | ⟨ad', hs', hl, he⟩ |
      ⟨ad', old, hs', hl, hne, he⟩ | ⟨ad', old, hs', hl, heq, he⟩
  · rw [hn] at h; exact Option.noConfusion h
  · have had : ad' = ad := by rw [hs'] at h; exact Option.some.inj h
    subst had
    rw [he]
    exact ⟨_, lookupKey_setKey_self _ _ _, rfl⟩
  · have had : ad' = ad := by rw [hs'] at h; exact Option.some.inj h
    subst had
    rw [he]
    exact ⟨_, lookupKey_setKey_self _ _ _, rfl⟩
  · rw [he] at hcls
    rcases hcls with h' | h' <;> exact Classification.noConfusion h'

/-- If a run classifies `X` Added or Updated anywhere, then the run's
final store holds a record for `X` whose fingerprint is the one the run
computes for `X`. -/
theorem runAll_write (env : ScrapeEnv) (X : String) (ad : ArticleData)
    (h : scrape_article_by_id env X = some ad) :
    ∀ (ds : List Descriptor) (st : RunState),
      ((X, Classification.added) ∈ traceAll env ds st ∨
       (X, Classification.updated) ∈ traceAll env ds st) →
      ∃ r, lookupKey (runAll env ds st).metadata X = some r ∧ r.hash = ad.hash := by
  intro ds
  induction ds with
  | nil =>
    intro st hmem
    rcases hmem with hmem | hmem <;> simp [traceAll] at hmem
  | cons d ds ih =>
    intro st hmem
    show ∃ r, lookupKey (runAll env ds (processArticle env st d).2).metadata X = some r ∧ r.hash = ad.hash
    rcases hmem with hmem | hmem <;> rcases List.mem_cons.mp hmem with hhead | htail
    · rw [Prod.mk.injEq] at hhead
      obtain ⟨r, hr, hrh⟩ := processArticle_write_hash env X ad h st d hhead.1.symm (Or.inl hhead.2.symm)
      exact ⟨r, runAll_preserve env X ad h ds _ r hr hrh, hrh⟩
    · exact ih _ (Or.inl htail)
    · rw [Prod.mk.injEq] at hhead
      obtain ⟨r, hr, hrh⟩ := processArticle_write_hash env X ad h st d hhead.1.symm (Or.inr hhead.2.symm)
      exact ⟨r, runAll_preserve env X ad h ds _ r hr hrh, hrh⟩
    · exact ih _ (Or.inr htail)

/-- A run started with `X`'s stored fingerprint equal to the fingerprint
it computes for `X` classifies every occurrence of `X` Unchanged, does
classify `X` (Unchanged) when `X` is among the processed descriptors,
and never adds `X`'s filename to the DeltaSet. -/
theorem runAll_unchanged (env : ScrapeEnv) (X : String) (ad : ArticleData)
    (h : scrape_article_by_id env X = some ad) :
    ∀ (ds : List Descriptor) (st : RunState) (r : FingerprintRecord),
      lookupKey st.metadata X = some r → r.hash = ad.hash →
      ((∀ c, (X, c) ∈ traceAll env ds st → c = Classification.unchanged) ∧
       (X ∈ ds.map Descriptor.id → (X, Classification.unchanged) ∈ traceAll env ds st) ∧
       ((X ++ ".md") ∈ (runAll env ds st).new_articles → (X ++ ".md") ∈ st.new_articles)) := by
  intro ds
  induction ds with
  | nil =>
    intro st r _ _
    refine ⟨?_, ?_, fun hf => hf⟩
    · intro c hc; simp [traceAll] at hc
    · intro hx; simp at hx
  | cons d ds ih =>
    intro st r hr hh
    by_cases hd : d.id = X
    · have hs : scrape_article_by_id env d.id = some ad := by rw [hd]; exact h
      have hl : lookupKey st.metadata d.id = some r := by rw [hd]; exact hr
      have he := processArticle_unchanged_eq env st d ad r hs hl hh
      obtain ⟨c1, c2, c3⟩ := ih (processArticle env st d).2 r (by rw [he]; exact hr) hh
      refine ⟨?_, ?_, ?_⟩
      · intro c hc
        rcases List.mem_cons.mp hc with hhead | htail
        · rw [Prod.mk.injEq] at hhead
          have hcv : c = (processArticle env st d).1 := hhead.2
          rw [he] at hcv
          exact hcv
        · exact c1 c htail
      · intro _
        apply List.mem_cons.mpr
        left
        rw [he, hd]
      · intro hf
        have hf' := c3 hf
        rw [he] at hf'
        exact hf'
    · have hm := processArticle_metadata_other env st d X hd
      obtain ⟨c1, c2, c3⟩ := ih (processArticle env st d).2 r (by rw [hm]; exact hr) hh
      refine ⟨?_, ?_, ?_⟩
      · intro c hc
        rcases List.mem_cons.mp hc with hhead | htail
        · exfalso
          rw [Prod.mk.injEq] at hhead
          exact hd hhead.1.symm
        · exact c1 c htail
      · intro hx
        rw [List.map_cons] at hx
        rcases List.mem_cons.mp hx with he' | htail
        · exact absurd he'.symm hd
        · exact List.mem_cons.mpr (Or.inr (c2 htail))
      · intro hf
        have hf' := c3 hf
        rcases processArticle_new_mem env st d (X ++ ".md") hf' with hin | heq
        · exact hin
        · exact absurd (append_md_inj X d.id heq).symm hd

/-- C2: if a run classifies article `X` Added or Updated (persisting its
fingerprint to the store), and a second run starting from that store
fetches content for `X` that normalizes to the same markdown, then the
second run classifies `X` Unchanged — at its occurrence, and at every
occurrence — and `X`'s filename is absent from the second run's
DeltaSet. -/
theorem scrape_all_second_run_unchanged
    (env₁ env₂ : ScrapeEnv) (pages₁ pages₂ : List PageResp) (limit₁ limit₂ : Nat)
    (store₀ : Metadata) (cache₀ cache₁ : Cache) (X : String) (ad₁ ad₂ : ArticleData)
    (h₁ : (X, Classification.added)
            ∈ traceAll env₁ ((fetch_articles_list pages₁).take limit₁) (initState store₀ cache₀) ∨
          (X, Classification.updated)
            ∈ traceAll env₁ ((fetch_articles_list pages₁).take limit₁) (initState store₀ cache₀))
    (ha₁ : scrape_article_by_id env₁ X = some ad₁)
    (ha₂ : scrape_article_by_id env₂ X = some ad₂)
    (hmd : ad₂.markdown = ad₁.markdown)
    (hX : X ∈ ((fetch_articles_list pages₂).take limit₂).map Descriptor.id) :
    ((X, Classification.unchanged)
        ∈ traceAll env₂ ((fetch_articles_list pages₂).take limit₂)
            (initState (scrape_all env₁ pages₁ limit₁ store₀ cache₀).metadata cache₁)) ∧
    (∀ c, (X, c) ∈ traceAll env₂ ((fetch_articles_list pages₂).take limit₂)
            (initState (scrape_all env₁ pages₁ limit₁ store₀ cache₀).metadata cache₁) →
      c = Classification.unchanged) ∧
    (X ++ ".md") ∉ (scrape_all env₂ pages₂ limit₂
        (scrape_all env₁ pages₁ limit₁ store₀ cache₀).metadata cache₁).new_articles := by
  obtain ⟨r, hr, hrh⟩ := runAll_write env₁ X ad₁ ha₁ _ _ h₁
  rw [← scrape_all_eq_runAll] at hr
  have hh₂ : r.hash = ad₂.hash := by
    rw [hrh, scrape_hash_consistent env₁ X ad₁ ha₁, scrape_hash_consistent env₂ X ad₂ ha₂, hmd]
  obtain ⟨c1, c2, c3⟩ := runAll_unchanged env₂ X ad₂ ha₂
    ((fetch_articles_list pages₂).take limit₂)
    (initState (scrape_all env₁ pages₁ limit₁ store₀ cache₀).metadata cache₁) r hr hh₂
  refine ⟨c2 hX, c1, ?_⟩
  intro hcontra
  rw [scrape_all_eq_runAll] at hcontra
  have hempty := c3 hcontra
  simp [initState] at hempty

/-- The single-article catalog page used by the C2 witness. -/
def pagesOne : List PageResp := [.success [{ id := "1", title := "A" }] false]

/-- C2 witness: the second-run theorem applied to two identical concrete
runs over a one-article catalog: the first run adds article 1, the
second leaves it unchanged and uploads nothing. -/
theorem scrape_all_second_run_unchanged_w :
    (("1", Classification.added)
          ∈ traceAll envHello ((fetch_articles_list pagesOne).take 1) (initState [] []) ∨
     ("1", Classification.updated)
          ∈ traceAll envHello ((fetch_articles_list pagesOne).take 1) (initState [] [])) ∧
    scrape_article_by_id envHello "1" = some adHello ∧
    adHello.markdown = adHello.markdown ∧
    "1" ∈ ((fetch_articles_list pagesOne).take 1).map Descriptor.id ∧
    ((("1", Classification.unchanged)
        ∈ traceAll envHello ((fetch_articles_list pagesOne).take 1)
            (initState (scrape_all envHello pagesOne 1 [] []).metadata [])) ∧
     (∀ c, ("1", c) ∈ traceAll envHello ((fetch_articles_list pagesOne).take 1)
            (initState (scrape_all envHello pagesOne 1 [] []).metadata []) →
       c = Classification.unchanged) ∧
     ("1" ++ ".md") ∉ (scrape_all envHello pagesOne 1
        (scrape_all envHello pagesOne 1 [] []).metadata []).new_articles) :=
  ⟨Or.inl (by decide), by decide, rfl, by decide,
   scrape_all_second_run_unchanged envHello envHello pagesOne pagesOne 1 1 [] [] []
     "1" adHello adHello (Or.inl (by decide)) (by decide) (by decide) rfl (by decide)⟩

/-! ## C10: the store only grows -/

theorem processArticle_meta_mono (env : ScrapeEnv) (st : RunState) (d : Descriptor) (i : String)
    (h : (lookupKey st.metadata i).isSome = true) :
    (lookupKey (processArticle env st d).2.metadata i).isSome = true := by
  rcases processArticle_shape env st d with ⟨_, he⟩ | ⟨ad, _, _, he⟩ |
      ⟨ad, old, _, _, _, he⟩ | ⟨ad, old, _, _, _, he⟩
  · rw [he]; exact h
  · rw [he]; exact lookupKey_setKey_isSome _ _ _ i h
  · rw [he]; exact lookupKey_setKey_isSome _ _ _ i h
  · rw [he]; exact h

theorem runAll_meta_mono (env : ScrapeEnv) :
    ∀ (ds : List Descriptor) (st : RunState) (i : String),
      (lookupKey st.metadata i).isSome = true →
      (lookupKey (runAll env ds st).metadata i).isSome = true := by
  intro ds
  induction ds with
  | nil => intro st i h; exact h
  | cons d ds ih =>
    intro st i h
    exact ih _ i (processArticle_meta_mono env st d i h)

/-- C10: a completed `scrape_all` run never deletes a fingerprint
record: every article id present in the store before the run is still
present in the persisted store after it (records are only inserted or
updated in place, and the empty-catalog early return persists nothing). -/
theorem scrape_all_store_superset (env : ScrapeEnv) (pages : List PageResp) (limit : Nat)
    (store : Metadata) (cache : Cache) (i : String)
    (h : (lookupKey store i).isSome = true) :
    (lookupKey (scrape_all env pages limit store cache).metadata i).isSome = true := by
  rw [scrape_all_eq_runAll]
  exact runAll_meta_mono env _ (initState store cache) i h

/-- C10 witness: the superset theorem applied to a store holding a stale
record for article 1 while the catalog lists only article 2 (article 1's
record survives the run). -/
theorem scrape_all_store_superset_w :
    (lookupKey [("1", oldStale)] "1").isSome = true ∧
    (lookupKey (scrape_all envHello [PageResp.success [{ id := "2", title := "B" }] false] 1
        [("1", oldStale)] []).metadata "1").isSome = true :=
  ⟨rfl,
   scrape_all_store_superset envHello [PageResp.success [{ id := "2", title := "B" }] false] 1
     [("1", oldStale)] [] "1" rfl⟩

/-! ## C3: the pipeline driver and the missing-credential abort -/

/-- A network call of the pipeline, for effect ordering: `catalogFetch`
is one page request of `fetch_articles_list`, `articleFetch` is one
`fetch_article_content` request, `registerCall` / `attachCall` /
`deleteCall` are the uploader's calls. -/
inductive NetEvent where
  | catalogFetch (page : Nat)
  | articleFetch (article_id : String)
  | registerCall (path : String)
  | attachCall (file_id : String)
  | deleteCall (file_id : String)
deriving DecidableEq, Repr

/-- The page requests `fetch_articles_list` issues, starting from page
`k`: every loop iteration requests one page; a failed page, an empty
page, and a page with no next page all end the loop. -/
def listTrace : Nat → List PageResp → List NetEvent
  | _, [] => []
  | k, .failure :: _ => [.catalogFetch k]
  | k, .success items next :: rest =>
    .catalogFetch k :: (if items = [] then [] else if next then listTrace (k + 1) rest else [])

/-- The network calls the scraping phase issues: the catalog page
requests, then one content fetch per processed descriptor (the loop of
`scrape_all` calls `scrape_article`, which always calls
`fetch_article_content`, for each of the first `limit` descriptors). -/
def scrapeNetTrace (pages : List PageResp) (limit : Nat) : List NetEvent :=
  listTrace 1 pages ++ ((fetch_articles_list pages).take limit).map (fun d => .articleFetch d.id)

/-- Uploader calls as network events. -/
def apiCallToNet : ApiCall → NetEvent
  | .registerFile p => .registerCall p
  | .attachFile f => .attachCall f
  | .deleteFile f => .deleteCall f

/-- `main` of `main.py`, as exit code plus the ordered network-call
trace.  Step 1 always runs `scrape_all` (issuing its catalog and
article fetches).  Step 2 runs only when the delta list is non-empty: it
constructs `VectorStoreManager`, whose `__init__` raises `ValueError`
when `OPENAI_API_KEY` is absent from the environment; `main` catches the
exception and returns exit code 1 — after the scraping network activity,
before any upload call.  With the key present, `upload_delta_files`
runs and `main` returns 0. -/
def main_run (apiKey : Option String) (env : ScrapeEnv) (uenv : UploadEnv)
    (pages : List PageResp) (limit : Nat) (store : Metadata) (cache : Cache) :
    Nat × List NetEvent :=
  if (scrape_all env pages limit store cache).new_articles = [] then
    (0, scrapeNetTrace pages limit)
  else
    match apiKey with
    | none => (1, scrapeNetTrace pages limit)
    | some _ =>
      (0, scrapeNetTrace pages limit ++
        ((upload_delta_files uenv "articles"
            (scrape_all env pages limit store cache).new_articles).2.map apiCallToNet))

theorem listTrace_catalog_only :
    ∀ (pages : List PageResp) (k : Nat) (e : NetEvent),
      e ∈ listTrace k pages → ∃ j, e = NetEvent.catalogFetch j := by
  intro pages
  induction pages with
  | nil => intro k e he; simp [listTrace] at he
  | cons p rest ih =>
    intro k e he
    cases p with
    | failure =>
      simp only [listTrace, List.mem_singleton] at he
      exact ⟨k, he⟩
    | success items next =>
      simp only [listTrace, List.mem_cons] at he
      rcases he with he | he
      · exact ⟨k, he⟩
      · by_cases hi : items = []
        · rw [if_pos hi] at he; simp at he
        · rw [if_neg hi] at he
          cases next with
          | true => exact ih (k + 1) e (by simpa using he)
          | false => simp at he

theorem scrapeNetTrace_no_upload (pages : List PageResp) (limit : Nat) :
    (∀ p, NetEvent.registerCall p ∉ scrapeNetTrace pages limit) ∧
    (∀ f, NetEvent.attachCall f ∉ scrapeNetTrace pages limit) := by
  constructor
  · intro p hp
    rcases List.mem_append.mp hp with h | h
    · obtain ⟨j, hj⟩ := listTrace_catalog_only pages 1 _ h
      exact NetEvent.noConfusion hj
    · obtain ⟨d, _, hd⟩ := List.mem_map.mp h
      exact NetEvent.noConfusion hd
  · intro f hf
    rcases List.mem_append.mp hf with h | h
    · obtain ⟨j, hj⟩ := listTrace_catalog_only pages 1 _ h
      exact NetEvent.noConfusion hj
    · obtain ⟨d, _, hd⟩ := List.mem_map.mp h
      exact NetEvent.noConfusion hd

/-- C3 counterexample: with `OPENAI_API_KEY` absent and a catalog whose
single article gets scraped (so there is a delta to upload), the run
does abort with exit code 1, but the catalog listing and the article
fetch have already happened by then — the abort does not precede all
network activity as claimed. -/
theorem main_missing_key_cex :
    (main_run none envHello uenvAttachFail pagesOne 1 [] []).1 = 1 ∧
    NetEvent.catalogFetch 1 ∈ (main_run none envHello uenvAttachFail pagesOne 1 [] []).2 ∧
    NetEvent.articleFetch "1" ∈ (main_run none envHello uenvAttachFail pagesOne 1 [] []).2 := by
  refine ⟨by decide, by decide, by decide⟩

/-- C3 (amended): when `OPENAI_API_KEY` is absent, no upload call
(register or attach) is ever issued; the run aborts with exit code 1
when there are delta files to upload — but only after the scraping
phase's catalog listing and article fetches — and when there is no
delta the missing credential never aborts the run at all (exit 0). -/
theorem main_missing_key_no_upload (env : ScrapeEnv) (uenv : UploadEnv)
    (pages : List PageResp) (limit : Nat) (store : Metadata) (cache : Cache)
    (apiKey : Option String) (hkey : apiKey = none) :
    (∀ p, NetEvent.registerCall p ∉ (main_run apiKey env uenv pages limit store cache).2) ∧
    (∀ f, NetEvent.attachCall f ∉ (main_run apiKey env uenv pages limit store cache).2) ∧
    ((scrape_all env pages limit store cache).new_articles ≠ [] →
      (main_run apiKey env uenv pages limit store cache).1 = 1) ∧
    ((scrape_all env pages limit store cache).new_articles = [] →
      (main_run apiKey env uenv pages limit store cache).1 = 0) := by
  subst hkey
  unfold main_run
  obtain ⟨hreg, hatt⟩ := scrapeNetTrace_no_upload pages limit
  by_cases h : (scrape_all env pages limit store cache).new_articles = []
  · rw [if_pos h]
    exact ⟨hreg, hatt, fun hc => absurd h hc, fun _ => rfl⟩
  · rw [if_neg h]
    exact ⟨hreg, hatt, fun _ => rfl, fun hc => absurd hc h⟩

/-- C3 witness: the amended theorem applied to the concrete
missing-credential run of the counterexample. -/
theorem main_missing_key_no_upload_w :
    ((none : Option String) = none) ∧
    ((∀ p, NetEvent.registerCall p ∉ (main_run none envHello uenvAttachFail pagesOne 1 [] []).2) ∧
     (∀ f, NetEvent.attachCall f ∉ (main_run none envHello uenvAttachFail pagesOne 1 [] []).2) ∧
     ((scrape_all envHello pagesOne 1 [] []).new_articles ≠ [] →
       (main_run none envHello uenvAttachFail pagesOne 1 [] []).1 = 1) ∧
     ((scrape_all envHello pagesOne 1 [] []).new_articles = [] →
       (main_run none envHello uenvAttachFail pagesOne 1 [] []).1 = 0)) :=
  ⟨rfl, main_missing_key_no_upload envHello uenvAttachFail pagesOne 1 [] [] none rfl⟩

/-! ## C8: persistence is not atomic -/

/-- The file contents observable if the process crashes at each point
during `save_metadata(metadata)`: the function opens
`articles_metadata.json` with mode w — which truncates the file on the
spot — and `json.dump` then writes the serialized text incrementally.
`oldContent` stands for the serialized store on disk before the call and
`newContent` for the serialization being written; the observable crash
states are the untouched old file, and every prefix of the new text
(including the empty file left right after the truncating open, and the
complete new file). -/
def save_metadata_crash_states (oldContent newContent : String) : List String :=
  oldContent ::
    (List.range (newContent.data.length + 1)).map (fun k => String.mk (newContent.data.take k))

/-- C8 counterexample: a crash between the truncating open and the
completion of the write leaves an empty store file, which is neither the
complete old store content nor the complete new one — `save_metadata`
does not give whole-file-replace atomicity. -/
theorem save_metadata_not_atomic_cex :
    "" ∈ save_metadata_crash_states "old" "new" ∧ "" ≠ "old" ∧ "" ≠ "new" := by
  refine ⟨by decide, by decide, by decide⟩

/-- C8 (amended): what a crash during `save_metadata` can leave behind
is either the old store content or some — possibly empty, possibly
partial — prefix of the new store content: an in-place truncate followed
by an incremental write, with no whole-file-replace guarantee. -/
theorem save_metadata_crash_prefix (oldC newC s : String)
    (h : s ∈ save_metadata_crash_states oldC newC) :
    s = oldC ∨ ∃ k, k ≤ newC.data.length ∧ s = String.mk (newC.data.take k) := by
  unfold save_metadata_crash_states at h
  rcases List.mem_cons.mp h with he | hm
  · exact Or.inl he
  · obtain ⟨k, hk, hs⟩ := List.mem_map.mp hm
    refine Or.inr ⟨k, ?_, hs.symm⟩
    have := List.mem_range.mp hk
    omega

/-- C8 witness: the crash-prefix theorem applied to the empty crash
state of a concrete save. -/
theorem save_metadata_crash_prefix_w :
    ("" ∈ save_metadata_crash_states "a" "b") ∧
    ("" = "a" ∨ ∃ k, k ≤ "b".data.length ∧ "" = String.mk ("b".data.take k)) :=
  ⟨by decide, save_metadata_crash_prefix "a" "b" "" (by decide)⟩

end OptiSigns
